import Mathlib

/-!
Verification of the example script at examples/contrib/funsor/ebfret.py.

The script is glue code around the Pyro probabilistic-programming
framework.  We shallowly embed the script's own logic: the models
registry comprehension, the error-raising control flow of main, the
sample-site structure of the generative model, the data preparation
steps (note masking and truncation), the training loop, and the final
parameter count.  Framework internals (SVI, ELBO computation, autograd,
tensor storage) are modelled only through the interfaces the script
uses, with per-step losses treated as an oracle.
-/

namespace Ebfret

/-- Models Python str.startswith: true when the character list of the
second argument is a prefix of the character list of the first. -/
def py_startswith (s p : String) : Bool :=
  p.data.isPrefixOf s.data

/-- The module-level names bound in the script at the point where the
models comprehension at lines 115-119 runs: the imports at lines 45-65,
the logging objects at lines 71-72, and the single generative-model
function named model, defined at line 85.  The functions main at
line 122 and the dict models itself are bound later, so they are not in
globals yet.  Double-underscore builtins are omitted here; none of them
starts with the prefix model_. -/
def moduleGlobals : List String :=
  ["argparse", "functools", "logging", "sys", "torch", "nn",
   "constraints", "poly", "AutoDelta", "Vindex", "ignore_jit_warnings",
   "dist", "handlers", "infer", "optim", "pyro", "pyro_backend",
   "log", "debug_handler", "model"]

/-- Lines 115-119: the models registry is a dict comprehension over
globals, keeping every name that starts with model_ and mapping the
name with that 6-character prefix stripped to the bound function.  We
represent each registered function by its global name. -/
def models : List (String × String) :=
  (moduleGlobals.filter (fun n => py_startswith n "model_")).map
    (fun n => (n.drop 6, n))

/-- Line 130: the dict lookup in main.  A result of none models a
Python KeyError. -/
def modelsLookup (key : String) : Option String :=
  (models.find? (fun kv => kv.1 == key)).map (fun kv => kv.2)

/-- The command-line flags that the script's own control flow inspects
when selecting the variational objective (lines 184-217). -/
structure Args where
  model : String
  jit : Bool
  tmc : Bool
  funsor : Bool
  deriving DecidableEq, Repr

/-- The exceptions the script's own statements can raise. -/
inductive ScriptError where
  | keyError (key : String)
  | notImplementedError
  | assertionError
  | nameError (name : String)
  deriving DecidableEq, Repr

/-- The ELBO classes the script selects among at lines 184-217. -/
inductive ElboKind where
  | traceTMC
  | jitTraceTMC
  | traceEnum
  | jitTraceEnum
  | traceMarkovEnum
  | jitTraceMarkovEnum
  deriving DecidableEq, Repr

/-- A constructed variational objective: the selected ELBO class and
the max_plate_nesting argument passed to it. -/
structure Objective where
  elbo : ElboKind
  maxPlateNesting : Nat
  deriving DecidableEq, Repr

/-- Lines 184-217 of main: the selection and construction of the
variational objective.  With the tmc flag, line 185 raises
NotImplementedError when jit is set and funsor is not; otherwise
line 188 evaluates the expression comparing the local model with the
global model_0, and since no global named model_0 exists anywhere in
the script, Python raises NameError there.  Without the tmc flag,
line 198 asserts funsor when the model flag is the string 7, the ELBO
class is the Markov-enumeration variant for model 7 and the plain
enumeration variant otherwise (jit-prefixed when jit is set), and
max_plate_nesting is 1 for model 0, 3 for model 7 and 2 otherwise. -/
def selectObjective (a : Args) : Except ScriptError Objective :=
  if a.tmc then
    if a.jit && !a.funsor then
      .error .notImplementedError
    else
      .error (.nameError "model_0")
  else
    if a.model == "7" then
      if !a.funsor then
        .error .assertionError
      else
        .ok { elbo := if a.jit then .jitTraceMarkovEnum else .traceMarkovEnum,
              maxPlateNesting := 3 }
    else
      .ok { elbo := if a.jit then .jitTraceEnum else .traceEnum,
            maxPlateNesting := if a.model == "0" then 1 else 2 }

/-- The error-raising control flow of main up to the construction of
the SVI objective: line 130 looks args.model up in models (raising
KeyError when the key is absent), and lines 184-217 then select the
objective.  Framework calls in between (data loading, guide
construction) are modelled as succeeding; the training loop at
line 221 runs only after this point. -/
def mainRun (a : Args) : Except ScriptError Objective :=
  match modelsLookup a.model with
  | none => .error (.keyError a.model)
  | some _ => selectObjective a

/-- C1: the models registry built at lines 115-119 is empty, because
the script's one generative-model function is named model, which does
not start with the prefix model_.  Hence the lookup at line 130 fails
with KeyError for every value of the model flag, including the default
value 1, instead of returning the script's generative model. -/
theorem C1_models_registry_empty :
    py_startswith "model" "model_" = false ∧
    models = [] ∧
    modelsLookup "1" = none ∧
    ∀ key, modelsLookup key = none := by
  refine ⟨by decide, by decide, rfl, fun key => rfl⟩

/-- C2: with the tmc and jit flags both set and funsor unset, main does
not raise NotImplementedError: it raises KeyError at the models lookup
on line 130, which precedes the incompatibility check at lines 185-186,
so that check is unreachable; indeed every invocation of main fails
with KeyError at line 130. -/
theorem C2_keyerror_preempts_notimplemented :
    mainRun { model := "1", jit := true, tmc := true, funsor := false }
      = .error (.keyError "1") ∧
    ScriptError.keyError "1" ≠ ScriptError.notImplementedError ∧
    ∀ a : Args, mainRun a = .error (.keyError a.model) := by
  refine ⟨rfl, by decide, fun a => rfl⟩

/-- C5: in the TMC branch of the objective selection, reaching the
construction at line 188 with the tmc flag set and the
incompatibility check passed raises NameError, because the expression
comparing model with model_0 refers to a global model_0 that the
script never defines; no TraceTMC_ELBO objective is constructed.  The
evaluation below takes tmc set and jit unset, and also tmc, jit and
funsor all set. -/
theorem C5_tmc_branch_nameerror :
    selectObjective { model := "1", jit := false, tmc := true, funsor := false }
      = .error (.nameError "model_0") ∧
    selectObjective { model := "1", jit := true, tmc := true, funsor := true }
      = .error (.nameError "model_0") ∧
    ScriptError.nameError "model_0" ≠ ScriptError.notImplementedError := by
  refine ⟨rfl, rfl, by decide⟩

/-- The kinds of Pyro sites the model function declares. -/
inductive SiteKind where
  | param
  | sample
  | plate
  deriving DecidableEq, Repr

/-- One Pyro site as the script declares it: its name, its kind, the
value under the enumerate key of its infer annotation when one is
passed, and whether the obs keyword is passed (an observed site). -/
structure Site where
  name : String
  kind : SiteKind
  enumerate : Option String
  isObserved : Bool
  deriving DecidableEq, Repr

/-- A param statement: no infer annotation, not observed. -/
def paramSite (n : String) : Site := ⟨n, .param, none, false⟩

/-- A latent sample statement with no infer annotation. -/
def sampleSite (n : String) : Site := ⟨n, .sample, none, false⟩

/-- Lines 102-106: the discrete latent state at step t, a sample site
named z_ followed by the step index, declared with the infer
annotation mapping enumerate to parallel. -/
def zSite (t : Nat) : Site :=
  ⟨"z_" ++ toString t, .sample, some "parallel", false⟩

/-- Lines 107-111: the observation at step t, a sample site named x_
followed by the step index, with the obs keyword and no infer
annotation. -/
def xSite (t : Nat) : Site :=
  ⟨"x_" ++ toString t, .sample, none, true⟩

/-- Lines 86-93 of the model function, in execution order: the trace
plate, the param rho inside the Dirichlet for the sample pi, the state
plate, the param alpha and the sample A, the params a and b and the
sample lamda, and the params m and beta and the sample mu. -/
def headerSites : List Site :=
  [⟨"trace", .plate, none, false⟩,
   paramSite "rho", sampleSite "pi",
   ⟨"state", .plate, none, false⟩,
   paramSite "alpha", sampleSite "A",
   paramSite "a", paramSite "b", sampleSite "lamda",
   paramSite "m", paramSite "beta", sampleSite "mu"]

/-- The sequence of sites the generative model (lines 85-112) declares
when run on data with T time steps, for the sequential markov branch
(the vectorized argument false, so the loop at line 101 iterates over
range T).  The loop body at lines 101-112 is the same in both
branches. -/
def modelTrace (T : Nat) : List Site :=
  headerSites ++ (List.range T).flatMap (fun t => [zSite t, xSite t])

lemma data_append (a b : String) : (a ++ b).data = a.data ++ b.data := by
  cases a
  cases b
  rfl

lemma isPrefixOf_cons_false (a b : Char) (as bs : List Char)
    (h : (a == b) = false) :
    List.isPrefixOf (a :: as) (b :: bs) = false := by
  simp [List.isPrefixOf, h]

lemma zSite_name_starts (t : Nat) :
    py_startswith (zSite t).name "z_" = true := by
  unfold py_startswith zSite
  rw [data_append]
  rw [List.isPrefixOf_iff_prefix]
  exact List.prefix_append _ _

lemma zSite_not_x (t : Nat) :
    py_startswith (zSite t).name "x_" = false := by
  unfold py_startswith zSite
  rw [data_append]
  exact isPrefixOf_cons_false _ _ _ _ (by decide)

lemma xSite_not_z (t : Nat) :
    py_startswith (xSite t).name "z_" = false := by
  unfold py_startswith xSite
  rw [data_append]
  exact isPrefixOf_cons_false _ _ _ _ (by decide)

lemma zSite_not_probs (t : Nat) :
    py_startswith (zSite t).name "probs_" = false := by
  unfold py_startswith zSite
  rw [data_append]
  exact isPrefixOf_cons_false _ _ _ _ (by decide)

lemma xSite_not_probs (t : Nat) :
    py_startswith (xSite t).name "probs_" = false := by
  unfold py_startswith xSite
  rw [data_append]
  exact isPrefixOf_cons_false _ _ _ _ (by decide)

lemma header_prefix_free :
    ∀ s ∈ headerSites, py_startswith s.name "z_" = false ∧
      py_startswith s.name "x_" = false ∧
      py_startswith s.name "probs_" = false := by decide

/-- Case analysis on membership in the model trace. -/
lemma mem_modelTrace (T : Nat) (s : Site) (hs : s ∈ modelTrace T) :
    s ∈ headerSites ∨ ∃ t, t < T ∧ (s = zSite t ∨ s = xSite t) := by
  unfold modelTrace at hs
  rcases List.mem_append.mp hs with h | h
  · exact Or.inl h
  · rcases List.mem_flatMap.mp h with ⟨t, ht, hmem⟩
    refine Or.inr ⟨t, List.mem_range.mp ht, ?_⟩
    simpa using hmem

/-- C4: for every time step t below the number T of time steps, the
model trace contains the discrete latent site z_t annotated with
enumerate parallel and the observed site x_t with no annotation;
moreover every site of the trace whose name starts with z_ carries the
parallel enumeration annotation, and every site whose name starts with
x_ carries no enumeration annotation and is observed. -/
theorem C4_z_enumerated_x_not (T t : Nat) (h : t < T) :
    zSite t ∈ modelTrace T ∧
    (zSite t).enumerate = some "parallel" ∧
    xSite t ∈ modelTrace T ∧
    (xSite t).enumerate = none ∧
    (xSite t).isObserved = true ∧
    (∀ s ∈ modelTrace T, py_startswith s.name "z_" = true →
      s.enumerate = some "parallel") ∧
    (∀ s ∈ modelTrace T, py_startswith s.name "x_" = true →
      s.enumerate = none ∧ s.isObserved = true) := by
  have hz : zSite t ∈ modelTrace T := by
    unfold modelTrace
    refine List.mem_append_right _ (List.mem_flatMap.mpr ?_)
    exact ⟨t, List.mem_range.mpr h, by simp⟩
  have hx : xSite t ∈ modelTrace T := by
    unfold modelTrace
    refine List.mem_append_right _ (List.mem_flatMap.mpr ?_)
    exact ⟨t, List.mem_range.mpr h, by simp⟩
  refine ⟨hz, rfl, hx, rfl, rfl, ?_, ?_⟩
  · intro s hs hname
    rcases mem_modelTrace T s hs with hh | ⟨u, _, hu | hu⟩
    · exact absurd hname (by simp [(header_prefix_free s hh).1])
    · subst hu; rfl
    · subst hu; exact absurd hname (by simp [xSite_not_z])
  · intro s hs hname
    rcases mem_modelTrace T s hs with hh | ⟨u, _, hu | hu⟩
    · exact absurd hname (by simp [(header_prefix_free s hh).2.1])
    · subst hu; exact absurd hname (by simp [zSite_not_x])
    · subst hu; exact ⟨rfl, rfl⟩

/-- C4 witness at T equal 3 and t equal 1. -/
theorem C4_z_enumerated_x_not_witness :
    1 < 3 ∧
    (zSite 1 ∈ modelTrace 3 ∧
     (zSite 1).enumerate = some "parallel" ∧
     xSite 1 ∈ modelTrace 3 ∧
     (xSite 1).enumerate = none ∧
     (xSite 1).isObserved = true ∧
     (∀ s ∈ modelTrace 3, py_startswith s.name "z_" = true →
       s.enumerate = some "parallel") ∧
     (∀ s ∈ modelTrace 3, py_startswith s.name "x_" = true →
       s.enumerate = none ∧ s.isObserved = true)) :=
  ⟨by decide, C4_z_enumerated_x_not 3 1 (by decide)⟩

/-- Lines 155-157: the guide is an AutoDelta over the model blocked
with an expose function keeping exactly the messages whose site name
starts with probs_.  These are the sites of the model the guide sees
and learns point estimates for. -/
def exposedSites (T : Nat) : List Site :=
  (modelTrace T).filter (fun s => py_startswith s.name "probs_")

/-- C8: no site declared by the model function has a name starting
with probs_, so the expose function of the block handler exposes no
model site at all and the AutoDelta guide learns point estimates for
none of the model's latent variables, whatever the number of time
steps. -/
theorem C8_guide_exposes_nothing (T : Nat) : exposedSites T = [] := by
  unfold exposedSites
  rw [List.filter_eq_nil_iff]
  intro s hs
  rcases mem_modelTrace T s hs with hh | ⟨u, _, hu | hu⟩
  · simp [(header_prefix_free s hh).2.2]
  · subst hu; simp [zSite_not_probs]
  · subst hu; simp [xSite_not_probs]

/-- A dataset of sequences is a list of sequences, each a list of time
rows, each a list of per-note values (dimension order sequence, time,
note, as in the script's tensors). -/
abbrev Sequences := List (List (List ℚ))

/-- Line 140: the per-note count of positions over the sequence and
time dimensions whose value equals 1, i.e. the two nested sums of the
elementwise comparison of the sequences tensor with 1. -/
def noteCount (sequences : Sequences) (n : Nat) : Nat :=
  (sequences.map (fun seq =>
    (seq.map (fun row => if row.getD n 0 = 1 then 1 else 0)).sum)).sum

/-- Line 140: the boolean mask over the note dimension, true exactly
where the per-note count is positive.  The argument noteDim is the
size of the note dimension of the sequences tensor. -/
def presentNotes (sequences : Sequences) (noteDim : Nat) : List Bool :=
  (List.range noteDim).map (fun n => decide (0 < noteCount sequences n))

/-- Boolean-mask indexing of one row along the note dimension, as in
the advanced indexing of lines 142 and 247: keep the entries at the
positions where the mask is true. -/
def applyMask (row : List ℚ) (mask : List Bool) : List ℚ :=
  ((row.zip mask).filter (fun p => p.2)).map (fun p => p.1)

/-- Lines 142 and 247: apply the note mask to the last dimension of a
sequences tensor. -/
def filterNotes (sequences : Sequences) (mask : List Bool) : Sequences :=
  sequences.map (fun seq => seq.map (fun row => applyMask row mask))

/-- Line 145: clamp every length to at most k. -/
def clampMax (lengths : List Nat) (k : Nat) : List Nat :=
  lengths.map (fun x => min x k)

/-- Lines 144-146 of main: the truncate flag is an optional integer
(none when the flag is absent); the Python condition on line 144 tests
its truthiness, so the value 0 behaves like an absent flag.  When the
condition holds, the lengths are clamped to at most the truncation
value and every sequence is cut to its first that-many time rows. -/
def truncateTrain (sequences : Sequences) (lengths : List Nat)
    (truncate : Option Nat) : Sequences × List Nat :=
  match truncate with
  | none => (sequences, lengths)
  | some k =>
    if k = 0 then (sequences, lengths)
    else (sequences.map (fun seq => seq.take k), clampMax lengths k)

/-- Lines 247-251 of main: the test data preparation.  The test
sequences are filtered with the note mask computed from the training
set; when the truncate condition holds the test lengths are clamped,
but the test sequences are not cut along the time dimension. -/
def testPrep (testSeqs : Sequences) (testLens : List Nat)
    (mask : List Bool) (truncate : Option Nat) : Sequences × List Nat :=
  (filterNotes testSeqs mask,
   match truncate with
   | none => testLens
   | some k => if k = 0 then testLens else clampMax testLens k)

/-- C6 counterexample: with the truncate flag given as 0, the flag is
present (it is not none) yet the training lengths are left unchanged
instead of being clamped to at most 0: on the length list containing
just 1 the code yields 1 while the clamp would yield 0. -/
theorem C6_counterexample :
    (some 0 : Option Nat) ≠ none ∧
    (truncateTrain [] [1] (some 0)).2 = [1] ∧
    clampMax [1] 0 = [0] ∧
    ([1] : List Nat) ≠ [0] := by decide

/-- C6 amended: if the truncate flag is given with a nonzero value k,
the training lengths are clamped to at most k (so every resulting
length is at most k) and the training sequences are cut to their first
k time rows; if the flag is absent, or given as 0 (which the Python
truthiness test treats as absent), sequences and lengths are
unchanged. -/
theorem C6_truncation (sequences : Sequences) (lengths : List Nat)
    (k : Nat) (hk : k ≠ 0) :
    truncateTrain sequences lengths (some k)
      = (sequences.map (fun seq => seq.take k), clampMax lengths k) ∧
    (∀ x ∈ (truncateTrain sequences lengths (some k)).2, x ≤ k) ∧
    (∀ seq ∈ (truncateTrain sequences lengths (some k)).1, seq.length ≤ k) ∧
    truncateTrain sequences lengths none = (sequences, lengths) ∧
    truncateTrain sequences lengths (some 0) = (sequences, lengths) := by
  have hbranch : truncateTrain sequences lengths (some k)
      = (sequences.map (fun seq => seq.take k), clampMax lengths k) := by
    simp [truncateTrain, hk]
  refine ⟨hbranch, ?_, ?_, rfl, by simp [truncateTrain]⟩
  · intro x hx
    rw [hbranch] at hx
    rcases List.mem_map.mp hx with ⟨y, _, hy⟩
    simp [← hy]
  · intro seq hseq
    rw [hbranch] at hseq
    rcases List.mem_map.mp hseq with ⟨s, _, hs⟩
    simp [← hs, List.length_take_le]

/-- C6 witness at one training sequence of three time rows, length
list 3, truncation value 2. -/
theorem C6_truncation_witness :
    (2 : Nat) ≠ 0 ∧
    (truncateTrain [[[1], [0], [1]]] [3] (some 2)
       = ([[[(1 : ℚ)], [0], [1]]].map (fun seq => seq.take 2), clampMax [3] 2) ∧
     (∀ x ∈ (truncateTrain [[[(1 : ℚ)], [0], [1]]] [3] (some 2)).2, x ≤ 2) ∧
     (∀ seq ∈ (truncateTrain [[[(1 : ℚ)], [0], [1]]] [3] (some 2)).1,
       seq.length ≤ 2) ∧
     truncateTrain [[[(1 : ℚ)], [0], [1]]] [3] none
       = ([[[(1 : ℚ)], [0], [1]]], [3]) ∧
     truncateTrain [[[(1 : ℚ)], [0], [1]]] [3] (some 0)
       = ([[[(1 : ℚ)], [0], [1]]], [3])) :=
  ⟨by decide, C6_truncation [[[(1 : ℚ)], [0], [1]]] [3] 2 (by decide)⟩

/-- C10 counterexample: with the truncate flag given as 0, the flag is
present (not none) yet at test evaluation the lengths are left
unchanged instead of being clamped to at most 0: on the length list
containing just 5 the code yields 5 while the clamp would yield 0. -/
theorem C10_counterexample :
    (some 0 : Option Nat) ≠ none ∧
    (testPrep [] [5] [] (some 0)).2 = [5] ∧
    clampMax [5] 0 = [0] ∧
    ([5] : List Nat) ≠ [0] := by decide

/-- C10 amended: when the truncate flag is given with a nonzero value
k, at test evaluation only the test lengths are clamped to at most k;
the test sequences tensor is only filtered by the note mask and, for
every truncate value, keeps all its time rows (it is not cut to its
first k time steps), unlike the training sequences, which lines
144-146 do cut to their first k time rows. -/
theorem C10_test_sequences_not_cut (testSeqs : Sequences)
    (testLens : List Nat) (mask : List Bool) (k : Nat) (hk : k ≠ 0) :
    (testPrep testSeqs testLens mask (some k)).2 = clampMax testLens k ∧
    (testPrep testSeqs testLens mask (some k)).1 = filterNotes testSeqs mask ∧
    (∀ truncate : Option Nat,
      ((testPrep testSeqs testLens mask truncate).1).map List.length
        = testSeqs.map List.length) ∧
    (truncateTrain testSeqs testLens (some k)).1
      = testSeqs.map (fun seq => seq.take k) := by
  refine ⟨by simp [testPrep, hk], rfl, ?_, by simp [truncateTrain, hk]⟩
  intro truncate
  simp [testPrep, filterNotes, List.map_map, Function.comp_def]

/-- C10 witness at one test sequence of three time rows, length list
5, note mask keeping the first of two notes, truncation value 2. -/
theorem C10_test_sequences_not_cut_witness :
    (2 : Nat) ≠ 0 ∧
    ((testPrep [[[1, 0], [0, 1], [1, 1]]] [5] [true, false] (some 2)).2
       = clampMax [5] 2 ∧
     (testPrep [[[(1 : ℚ), 0], [0, 1], [1, 1]]] [5] [true, false] (some 2)).1
       = filterNotes [[[(1 : ℚ), 0], [0, 1], [1, 1]]] [true, false] ∧
     (∀ truncate : Option Nat,
       ((testPrep [[[(1 : ℚ), 0], [0, 1], [1, 1]]] [5] [true, false]
           truncate).1).map List.length
         = [[[(1 : ℚ), 0], [0, 1], [1, 1]]].map List.length) ∧
     (truncateTrain [[[(1 : ℚ), 0], [0, 1], [1, 1]]] [5] (some 2)).1
       = [[[(1 : ℚ), 0], [0, 1], [1, 1]]].map (fun seq => seq.take 2)) :=
  ⟨by decide,
   C10_test_sequences_not_cut [[[(1 : ℚ), 0], [0, 1], [1, 1]]] [5]
     [true, false] 2 (by decide)⟩

lemma list_sum_pos_iff (l : List Nat) : 0 < l.sum ↔ ∃ x ∈ l, 0 < x := by
  induction l with
  | nil => simp
  | cons a as ih =>
    rw [List.sum_cons]
    constructor
    · intro h
      rcases Nat.eq_zero_or_pos a with ha | ha
      · subst ha
        rcases ih.mp (by simpa using h) with ⟨x, hx, hxp⟩
        exact ⟨x, List.mem_cons_of_mem _ hx, hxp⟩
      · exact ⟨a, List.mem_cons_self _ _, ha⟩
    · rintro ⟨x, hx, hxp⟩
      rcases List.mem_cons.mp hx with rfl | hx
      · exact Nat.lt_of_lt_of_le hxp (Nat.le_add_right _ _)
      · exact Nat.lt_of_lt_of_le (ih.mpr ⟨x, hx, hxp⟩) (Nat.le_add_left _ _)

/-- The per-note count of line 140 is positive exactly when the note
is played (its value equals 1) at least once anywhere in the set. -/
lemma noteCount_pos_iff (sequences : Sequences) (n : Nat) :
    0 < noteCount sequences n ↔
      ∃ seq ∈ sequences, ∃ row ∈ seq, row.getD n 0 = 1 := by
  unfold noteCount
  rw [list_sum_pos_iff]
  constructor
  · rintro ⟨x, hx, hxp⟩
    rcases List.mem_map.mp hx with ⟨seq, hseq, rfl⟩
    rcases (list_sum_pos_iff _).mp hxp with ⟨y, hy, hyp⟩
    rcases List.mem_map.mp hy with ⟨row, hrow, rfl⟩
    refine ⟨seq, hseq, row, hrow, ?_⟩
    by_contra hne
    rw [List.getD_eq_getElem?_getD] at hne
    simp [hne] at hyp
  · rintro ⟨seq, hseq, row, hrow, hval⟩
    rw [List.getD_eq_getElem?_getD] at hval
    refine ⟨_, List.mem_map_of_mem _ hseq, (list_sum_pos_iff _).mpr ?_⟩
    exact ⟨_, List.mem_map_of_mem _ hrow, by simp [hval]⟩

lemma getD_map_range {α : Type} (f : Nat → α) (d : α) (D n : Nat)
    (h : n < D) :
    ((List.range D).map f).getD n d = f n := by
  rw [List.getD_eq_getElem?_getD]
  simp [List.getElem?_range, h]

lemma applyMask_length (row : List ℚ) (mask : List Bool)
    (h : row.length = mask.length) :
    (applyMask row mask).length = mask.count true := by
  induction mask generalizing row with
  | nil =>
    rcases row with _ | ⟨x, xs⟩
    · simp [applyMask]
    · simp at h
  | cons b bs ih =>
    rcases row with _ | ⟨x, xs⟩
    · simp at h
    · have hx : xs.length = bs.length := by simpa using h
      cases b
      · simpa [applyMask, List.count_cons] using ih xs hx
      · simpa [applyMask, List.count_cons] using ih xs hx

lemma filterNotes_row_length (sequences : Sequences) (mask : List Bool)
    (hrect : ∀ seq ∈ sequences, ∀ row ∈ seq, row.length = mask.length) :
    ∀ seq ∈ filterNotes sequences mask, ∀ row ∈ seq,
      row.length = mask.count true := by
  intro seq hseq row hrow
  rcases List.mem_map.mp hseq with ⟨seq0, hseq0, rfl⟩
  rcases List.mem_map.mp hrow with ⟨row0, hrow0, rfl⟩
  exact applyMask_length row0 mask (hrect seq0 hseq0 row0 hrow0)

/-- C9: the note mask of line 140 depends only on the training
sequences, and for every note index n below the note dimension D it
keeps note n exactly when some row of some training sequence plays it
(has value 1 there); applying that one mask to the training sequences
(line 142) and to the test sequences (line 247) gives rows of the same
note dimension, namely the number of kept notes. -/
theorem C9_mask_from_train_only (train test : Sequences) (D n : Nat)
    (hn : n < D)
    (htrain : ∀ seq ∈ train, ∀ row ∈ seq, row.length = D)
    (htest : ∀ seq ∈ test, ∀ row ∈ seq, row.length = D) :
    ((presentNotes train D).getD n false = true ↔
      ∃ seq ∈ train, ∃ row ∈ seq, row.getD n 0 = 1) ∧
    (∀ seq ∈ filterNotes train (presentNotes train D), ∀ row ∈ seq,
      row.length = (presentNotes train D).count true) ∧
    (∀ seq ∈ filterNotes test (presentNotes train D), ∀ row ∈ seq,
      row.length = (presentNotes train D).count true) := by
  have hlen : (presentNotes train D).length = D := by simp [presentNotes]
  refine ⟨?_, ?_, ?_⟩
  · rw [presentNotes, getD_map_range _ _ D n hn, decide_eq_true_eq]
    exact noteCount_pos_iff train n
  · exact filterNotes_row_length train _
      (fun s hs r hr => by rw [htrain s hs r hr, hlen])
  · exact filterNotes_row_length test _
      (fun s hs r hr => by rw [htest s hs r hr, hlen])

/-- C9 witness: one training sequence playing only the first of two
notes and one test sequence, note index 0. -/
theorem C9_mask_from_train_only_witness :
    ((0 : Nat) < 2 ∧
     (∀ seq ∈ ([[[(1 : ℚ), 0]]] : Sequences), ∀ row ∈ seq,
       row.length = 2) ∧
     (∀ seq ∈ ([[[(0 : ℚ), 1]]] : Sequences), ∀ row ∈ seq,
       row.length = 2)) ∧
    (((presentNotes [[[(1 : ℚ), 0]]] 2).getD 0 false = true ↔
       ∃ seq ∈ ([[[(1 : ℚ), 0]]] : Sequences), ∃ row ∈ seq,
         row.getD 0 0 = 1) ∧
     (∀ seq ∈ filterNotes [[[(1 : ℚ), 0]]]
         (presentNotes [[[(1 : ℚ), 0]]] 2), ∀ row ∈ seq,
       row.length = (presentNotes [[[(1 : ℚ), 0]]] 2).count true) ∧
     (∀ seq ∈ filterNotes [[[(0 : ℚ), 1]]]
         (presentNotes [[[(1 : ℚ), 0]]] 2), ∀ row ∈ seq,
       row.length = (presentNotes [[[(1 : ℚ), 0]]] 2).count true)) :=
  ⟨⟨by decide, by decide, by decide⟩,
   C9_mask_from_train_only [[[(1 : ℚ), 0]]] [[[(0 : ℚ), 1]]] 2 0
     (by decide) (by decide) (by decide)⟩

/-- One call to svi.step at line 222: the two positional arguments and
the batch_size keyword argument. -/
structure SviCall where
  sequences : Sequences
  lengths : List Nat
  batchSize : Nat
  deriving DecidableEq, Repr

/-- The body of the loop at lines 221-223, iterated over a list of
step indices: each iteration calls svi.step once on the training
sequences, lengths and batch size, and appends a log record pairing
the step index with the returned loss divided by num_observations.
The function stepLoss abstracts the loss value svi.step returns at
each step, which depends on framework-internal optimizer state. -/
def runSteps (stepLoss : Nat → ℚ) (sequences : Sequences)
    (lengths : List Nat) (batchSize : Nat) (numObservations : ℚ) :
    List Nat → List SviCall × List (Nat × ℚ)
  | [] => ([], [])
  | step :: rest =>
    let call : SviCall := ⟨sequences, lengths, batchSize⟩
    let loss := stepLoss step
    let tail := runSteps stepLoss sequences lengths batchSize
      numObservations rest
    (call :: tail.1, (step, loss / numObservations) :: tail.2)

/-- Line 221: the loop header iterates step over range num_steps. -/
def trainingLoop (numSteps : Nat) (stepLoss : Nat → ℚ)
    (sequences : Sequences) (lengths : List Nat) (batchSize : Nat)
    (numObservations : ℚ) : List SviCall × List (Nat × ℚ) :=
  runSteps stepLoss sequences lengths batchSize numObservations
    (List.range numSteps)

/-- Lines 144-147 and 219-223 composed: main truncates the training
data, computes num_observations at line 147 as the sum of the
resulting lengths, and runs the training loop on the result. -/
def mainTrainingPhase (stepLoss : Nat → ℚ) (sequences : Sequences)
    (lengths : List Nat) (truncate : Option Nat)
    (numSteps batchSize : Nat) : List SviCall × List (Nat × ℚ) :=
  trainingLoop numSteps stepLoss
    (truncateTrain sequences lengths truncate).1
    (truncateTrain sequences lengths truncate).2 batchSize
    (((truncateTrain sequences lengths truncate).2.sum : Nat) : ℚ)

lemma runSteps_fst (stepLoss : Nat → ℚ) (s : Sequences) (l : List Nat)
    (b : Nat) (no : ℚ) (steps : List Nat) :
    (runSteps stepLoss s l b no steps).1
      = steps.map (fun _ => (⟨s, l, b⟩ : SviCall)) := by
  induction steps with
  | nil => rfl
  | cons a as ih => simp [runSteps, ih]

lemma runSteps_snd (stepLoss : Nat → ℚ) (s : Sequences) (l : List Nat)
    (b : Nat) (no : ℚ) (steps : List Nat) :
    (runSteps stepLoss s l b no steps).2
      = steps.map (fun step => (step, stepLoss step / no)) := by
  induction steps with
  | nil => rfl
  | cons a as ih => simp [runSteps, ih]

/-- C3: the training loop makes exactly numSteps iterations; every
iteration issues exactly one svi.step call carrying the (truncated)
training sequences, the (truncated) lengths and the batch size, and
the i-th log record pairs the step index i with the loss returned at
step i divided by num_observations, which is the sum of the truncated
training lengths. -/
theorem C3_training_loop (stepLoss : Nat → ℚ) (sequences : Sequences)
    (lengths : List Nat) (truncate : Option Nat)
    (numSteps batchSize i : Nat) (hi : i < numSteps) :
    (mainTrainingPhase stepLoss sequences lengths truncate numSteps
        batchSize).1.length = numSteps ∧
    (∀ c ∈ (mainTrainingPhase stepLoss sequences lengths truncate
        numSteps batchSize).1,
      c = ⟨(truncateTrain sequences lengths truncate).1,
           (truncateTrain sequences lengths truncate).2, batchSize⟩) ∧
    (mainTrainingPhase stepLoss sequences lengths truncate numSteps
        batchSize).2.length = numSteps ∧
    (mainTrainingPhase stepLoss sequences lengths truncate numSteps
        batchSize).2.getD i (0, 0)
      = (i, stepLoss i /
          (((truncateTrain sequences lengths truncate).2.sum : Nat) : ℚ)) := by
  unfold mainTrainingPhase trainingLoop
  rw [runSteps_fst, runSteps_snd]
  refine ⟨by simp, ?_, by simp, ?_⟩
  · intro c hc
    rcases List.mem_map.mp hc with ⟨_, _, rfl⟩
    rfl
  · exact getD_map_range _ _ numSteps i hi

/-- C3 witness: one sequence of one time row, length list 1, no
truncation, two steps, batch size 8, log record at index 1. -/
theorem C3_training_loop_witness :
    1 < 2 ∧
    ((mainTrainingPhase (fun st => (st : ℚ)) [[[1]]] [1] none 2
        8).1.length = 2 ∧
     (∀ c ∈ (mainTrainingPhase (fun st => (st : ℚ)) [[[(1 : ℚ)]]] [1]
         none 2 8).1,
       c = ⟨(truncateTrain [[[(1 : ℚ)]]] [1] none).1,
            (truncateTrain [[[(1 : ℚ)]]] [1] none).2, 8⟩) ∧
     (mainTrainingPhase (fun st => (st : ℚ)) [[[(1 : ℚ)]]] [1] none 2
        8).2.length = 2 ∧
     (mainTrainingPhase (fun st => (st : ℚ)) [[[(1 : ℚ)]]] [1] none 2
        8).2.getD 1 (0, 0)
       = (1, ((1 : Nat) : ℚ) /
           (((truncateTrain [[[(1 : ℚ)]]] [1] none).2.sum : Nat) : ℚ))) :=
  ⟨by decide,
   C3_training_loop (fun st => (st : ℚ)) [[[(1 : ℚ)]]] [1] none 2 8 1
     (by decide)⟩

/-- A stored parameter tensor: its shape and its flat scalar data,
with the storage invariant that the length of the data equals the
product of the shape dimensions. -/
structure PyTensor where
  shape : List Nat
  data : List ℚ
  size_eq : data.length = shape.prod

/-- The flattened one-dimensional view of a tensor, as produced by
reshape with argument minus one at line 269; its size along dimension
0 is its length. -/
def reshapeFlat (t : PyTensor) : List ℚ := t.data

/-- Lines 268-270: the capacity printed at the end of main, the sum
over the values of the global parameter store of the size along
dimension 0 of the flattened value. -/
def capacity (store : List (String × PyTensor)) : Nat :=
  (store.map (fun kv => (reshapeFlat kv.2).length)).sum

/-- The total number of scalar elements of a tensor. -/
def numel (t : PyTensor) : Nat := t.shape.prod

/-- C7: the parameter count printed at the end of main equals the sum,
over every value held in the parameter store, of the total number of
scalar elements of that value. -/
theorem C7_capacity_counts_elements (store : List (String × PyTensor)) :
    capacity store = (store.map (fun kv => numel kv.2)).sum := by
  induction store with
  | nil => rfl
  | cons kv rest ih =>
    simp only [capacity, numel, reshapeFlat, List.map_cons,
      List.sum_cons] at ih ⊢
    rw [kv.2.size_eq, ih]

end Ebfret
